import Mathlib

/-!
Shallow embedding of src/derstandard_mod_detector.py, the snapshot-diff
moderation detector.  Python dicts become association lists
(`List (String × α)`); ISO timestamp strings become their parsed value
(`Option Int`, `none` standing for strings `datetime.fromisoformat`
rejects); SQLite's moderated_postings relation becomes a list of rows.
-/

namespace ModDetector

/-- One forum posting as built by collect_postings_from_node. -/
structure Posting where
  id : String
  author : String
  title : String
  text : String
  created_at : Option Int
  root_posting_id : String
  parent_posting_id : String
  upvotes : Nat
  downvotes : Nat
  self_deleted : Bool
deriving DecidableEq

/-- Python dict lookup (d.get(k)) on an association list. -/
def alookup {α : Type} (l : List (String × α)) (k : String) : Option α :=
  match l with
  | [] => none
  | (k1, v) :: rest => if k1 = k then some v else alookup rest k

/-- Python dict keys. -/
def keysOf {α : Type} (l : List (String × α)) : List String :=
  l.map Prod.fst

/-- Python dict item assignment d[k] = v: replace the binding if present, else append. -/
def setEntry {α : Type} (l : List (String × α)) (k : String) (v : α) : List (String × α) :=
  match l with
  | [] => [(k, v)]
  | (k1, v1) :: rest => if k1 = k then (k, v) :: rest else (k1, v1) :: setEntry rest k v

/-- Python dict.update: old.update(new) writes every binding of new into old. -/
def dictUpdate {α : Type} (old new : List (String × α)) : List (String × α) :=
  new.foldl (fun acc kv => setEntry acc kv.1 kv.2) old

/-- Monitored forum entry: forums[forum_id] = dict with url, title, last_activity. -/
structure ForumInfo where
  url : String
  title : String
  last_activity : Option Int
deriving DecidableEq

/-- One row of the moderated_postings relation of init_db (the autoincrement
surrogate id column is omitted; rows are identified by their position). -/
structure DBRow where
  forum_id : String
  article_url : String
  posting_id : String
  author : String
  title : String
  text : String
  created_at : Option Int
  moderated_at : Int
  is_reply : Nat
  upvotes : Nat
  downvotes : Nat
  thread_id : String
  article_title : String
  parent_posting_id : String
  parent_author : String
  parent_title : String
  parent_text : String
deriving DecidableEq

/-- Argument dict of save_moderated: either a cached posting (possibly
enriched with the parent fields) or the cache-miss placeholder; a `none`
field models an absent dict key, read back through dict.get defaults. -/
structure EventPosting where
  id : String
  author : String
  title : String
  text : String
  created_at : Option Int
  root_posting_id : Option String
  parent_posting_id : Option String
  upvotes : Option Nat
  downvotes : Option Nat
  parent_author : Option String
  parent_title : Option String
  parent_text : Option String
deriving DecidableEq

/-- Row built inside save_moderated before the INSERT: root comes from
posting.get("root_posting_id") or "", is_reply and thread_id derive from it,
and the optional fields fall back to the dict.get defaults. -/
def event_row (forum_id article_url article_title : String) (now : Int)
    (posting : EventPosting) : DBRow :=
  let root := posting.root_posting_id.getD ""
  { forum_id := forum_id
    article_url := article_url
    posting_id := posting.id
    author := posting.author
    title := posting.title
    text := posting.text
    created_at := posting.created_at
    moderated_at := now
    is_reply := if root = "" then 0 else 1
    upvotes := posting.upvotes.getD 0
    downvotes := posting.downvotes.getD 0
    thread_id := if root = "" then posting.id else root
    article_title := article_title
    parent_posting_id := posting.parent_posting_id.getD ""
    parent_author := posting.parent_author.getD ""
    parent_title := posting.parent_title.getD ""
    parent_text := posting.parent_text.getD "" }

/-- Test for an existing row with the same (forum_id, posting_id) natural key,
the UNIQUE constraint of the moderated_postings schema. -/
def hasKey (db : List DBRow) (forum_id posting_id : String) : Bool :=
  db.any (fun r => decide (r.forum_id = forum_id) && decide (r.posting_id = posting_id))

/-- save_moderated: INSERT OR IGNORE into moderated_postings.  A duplicate
(forum_id, posting_id) is skipped silently by OR IGNORE and sqlite raises no
IntegrityError, so both paths reach the final return True; the Python
except-branch that returns False is unreachable. -/
def save_moderated (db : List DBRow) (forum_id article_url article_title : String)
    (now : Int) (posting : EventPosting) : Bool × List DBRow :=
  if hasKey db forum_id posting.id then (true, db)
  else (true, db ++ [event_row forum_id article_url article_title now posting])

/-- Count of rows in the relation matching a (forum_id, posting_id) key. -/
def countKey (db : List DBRow) (forum_id posting_id : String) : Nat :=
  (db.filter (fun r => decide (r.forum_id = forum_id) && decide (r.posting_id = posting_id))).length

/-- newest_posting_time: maximum parseable created_at of a fetched dict of
postings, or none; unparseable timestamps are skipped. -/
def newest_posting_time (postings : List (String × Posting)) : Option Int :=
  postings.foldl
    (fun newest kv =>
      match kv.2.created_at with
      | none => newest
      | some dt =>
        match newest with
        | none => some dt
        | some n => if n < dt then some dt else some n)
    none

/-- Diff half added = current_ids - previous_ids (main loop). -/
def added_ids (previous current : List String) : List String :=
  current.filter (fun k => decide (k ∉ previous))

/-- Diff half removed = previous_ids - current_ids (main loop). -/
def removed_ids (previous current : List String) : List String :=
  previous.filter (fun k => decide (k ∉ current))

/-- Filter of the removed ids down to moderation candidates: a cached record
with self_deleted true is dropped; a cache hit with self_deleted false and a
cache miss are both kept. -/
def classify_removed (cache : List (String × Posting)) (removed : List String) :
    List String :=
  removed.filter (fun pid =>
    match alookup cache pid with
    | some p => !p.self_deleted
    | none => true)

/-- Event dict handed to save_moderated for one removed id: the cached
posting enriched with parent author/title/text resolved from the cache when
parent_posting_id is non-empty, or the cache-miss placeholder dict. -/
def build_event (cache : List (String × Posting)) (pid : String) : EventPosting :=
  match alookup cache pid with
  | none =>
    { id := pid, author := "?", title := "?", text := "?", created_at := none,
      root_posting_id := none, parent_posting_id := none, upvotes := none,
      downvotes := none, parent_author := none, parent_title := none,
      parent_text := none }
  | some p =>
    let parentFields :=
      if p.parent_posting_id ≠ "" then
        match alookup cache p.parent_posting_id with
        | some par => (some par.author, some par.title, some par.text)
        | none => ((none : Option String), (none : Option String), (none : Option String))
      else ((none : Option String), (none : Option String), (none : Option String))
    { id := p.id, author := p.author, title := p.title, text := p.text,
      created_at := p.created_at, root_posting_id := some p.root_posting_id,
      parent_posting_id := some p.parent_posting_id,
      upvotes := some p.upvotes, downvotes := some p.downvotes,
      parent_author := parentFields.1, parent_title := parentFields.2.1,
      parent_text := parentFields.2.2 }

/-- Persistence pass over the moderation candidates of one forum. -/
def persist_moderated (db : List DBRow) (forum_id article_url article_title : String)
    (now : Int) (cache : List (String × Posting)) (pids : List String) : List DBRow :=
  pids.foldl
    (fun d pid =>
      (save_moderated d forum_id article_url article_title now (build_event cache pid)).2)
    db

/-- Per-cycle update of forums[forum_id]: last_activity is overwritten with
the newest created_at of the current fetch whenever one exists. -/
def updated_info (info : ForumInfo) (current : List (String × Posting)) : ForumInfo :=
  match newest_posting_time current with
  | some t => { info with last_activity := some t }
  | none => info

/-- Orchestrator state: the in-memory forums, snapshots and posting_cache
dicts of main plus the durable moderated_postings relation. -/
structure State where
  forums : List (String × ForumInfo)
  snapshots : List (String × List (String × Posting))
  posting_cache : List (String × Posting)
  db : List DBRow
deriving DecidableEq

/-- Database after the diff pass of one forum: no previous snapshot means no
events; otherwise the removed ids are classified against the updated cache
and the candidates persisted. -/
def new_db (st : State) (forum_id : String) (info : ForumInfo)
    (current : List (String × Posting)) (now : Int) : List DBRow :=
  match alookup st.snapshots forum_id with
  | none => st.db
  | some prev =>
    persist_moderated st.db forum_id info.url info.title now
      (dictUpdate st.posting_cache current)
      (classify_removed (dictUpdate st.posting_cache current)
        (removed_ids (keysOf prev) (keysOf current)))

/-- Body of the per-forum loop of main for one forum: a failed fetch (none)
leaves the state untouched; a successful fetch updates last_activity and the
cache, runs the diff pass when a previous snapshot exists, and overwrites
the stored snapshot with the fetched set. -/
def process_forum (st : State) (forum_id : String)
    (fetch : Option (List (String × Posting))) (now : Int) : State :=
  match alookup st.forums forum_id, fetch with
  | none, _ => st
  | some _, none => st
  | some info, some current =>
    { forums := setEntry st.forums forum_id (updated_info info current)
      snapshots := setEntry st.snapshots forum_id current
      posting_cache := dictUpdate st.posting_cache current
      db := new_db st forum_id info current now }

/-- One poll cycle's per-forum pass, sequential over the forum id list. -/
def process_cycle (st : State) (ids : List String)
    (fetch : String → Option (List (String × Posting))) (now : Int) : State :=
  ids.foldl (fun s fid => process_forum s fid (fetch fid) now) st

/-- Staleness test of the cleanup pass: age over the threshold; a forum with
no last_activity is never stale.  Minutes compare as
(now - last).total_seconds() / 60 > max_inactive, i.e. with seconds as
integers 60 * max_inactive < now - last. -/
def isStale (now max_inactive : Int) (info : ForumInfo) : Bool :=
  match info.last_activity with
  | none => false
  | some la => decide (60 * max_inactive < now - la)

/-- Forum ids collected as stale by the cleanup pass. -/
def stale_forums (forums : List (String × ForumInfo)) (now max_inactive : Int) :
    List String :=
  keysOf (forums.filter (fun kv => isStale now max_inactive kv.2))

/-- Cleanup pass at the end of a cycle: when max_inactive is positive, every
stale forum is popped from forums and snapshots; posting_cache and the
database are untouched. -/
def cleanup_inactive (st : State) (now max_inactive : Int) : State :=
  if 0 < max_inactive then
    { st with
      forums := st.forums.filter
        (fun kv => decide (kv.1 ∉ stale_forums st.forums now max_inactive))
      snapshots := st.snapshots.filter
        (fun kv => decide (kv.1 ∉ stale_forums st.forums now max_inactive)) }
  else st

/-- Result of the external get_forum_info call inside discovery: a raised
exception, an article with no forum, or a forum id with its total posting
count. -/
inductive InfoResult where
  | fetchError : InfoResult
  | noForum : InfoResult
  | forum : String → Nat → InfoResult
deriving DecidableEq

/-- One step of the discovery loop over a single RSS item: skip known urls,
fetch errors, articles without a forum, already monitored forum ids, and
forums below the min_posts threshold; otherwise record the new entry. -/
def discover_step (forums : List (String × ForumInfo)) (min_posts : Nat)
    (get_info : String → InfoResult)
    (new_entries : List (String × ForumInfo)) (item : String × String) :
    List (String × ForumInfo) :=
  if item.1 ∈ forums.map (fun kv => kv.2.url) then new_entries
  else
    match get_info item.1 with
    | InfoResult.fetchError => new_entries
    | InfoResult.noForum => new_entries
    | InfoResult.forum fid count =>
      if fid ∈ keysOf forums then new_entries
      else if count < min_posts then new_entries
      else setEntry new_entries fid { url := item.1, title := item.2, last_activity := none }

/-- discover_articles over an already fetched RSS item list, with get_info
standing for the external get_forum_info call. -/
def discover_articles (forums : List (String × ForumInfo)) (min_posts : Nat)
    (rss_items : List (String × String)) (get_info : String → InfoResult) :
    List (String × ForumInfo) :=
  rss_items.foldl (discover_step forums min_posts get_info) []

/-- Well-formedness of fetched posting dicts: collect_postings_from_node
keys every posting by its own id field. -/
def cacheWF (l : List (String × Posting)) : Prop :=
  ∀ kv ∈ l, (kv : String × Posting).2.id = kv.1

/-- Sample posting with created_at 50. -/
def posting50 : Posting :=
  { id := "p", author := "alice", title := "t", text := "x", created_at := some 50,
    root_posting_id := "", parent_posting_id := "", upvotes := 0, downvotes := 0,
    self_deleted := false }

/-- Sample posting with created_at 100. -/
def posting100 : Posting :=
  { id := "q", author := "bob", title := "t2", text := "y", created_at := some 100,
    root_posting_id := "", parent_posting_id := "", upvotes := 1, downvotes := 2,
    self_deleted := false }

/-- Forum entry never yet polled. -/
def finfo_none : ForumInfo := { url := "u", title := "", last_activity := none }

/-- Forum entry with stored last_activity 100. -/
def finfo100 : ForumInfo := { url := "u", title := "", last_activity := some 100 }

/-- Sample state before any snapshot of forum f exists. -/
def st2 : State :=
  { forums := [("f", finfo_none)], snapshots := [], posting_cache := [], db := [] }

/-- Sample fetched posting set. -/
def cur2 : List (String × Posting) := [("p", posting50)]

/-- Sample state whose stored last_activity is 100 and whose previous
snapshot held the posting created at 100. -/
def st5 : State :=
  { forums := [("f", finfo100)],
    snapshots := [("f", [("q", posting100), ("p", posting50)])],
    posting_cache := [("q", posting100), ("p", posting50)],
    db := [] }

/-- Sample state with one stale and one never-polled forum. -/
def st7 : State :=
  { forums := [("f", finfo100), ("g", finfo_none)],
    snapshots := [("f", [("q", posting100)]), ("g", [])],
    posting_cache := [("q", posting100)],
    db := [] }

/-- Sample event dict for the persistence claims. -/
def ev1 : EventPosting :=
  { id := "p1", author := "alice", title := "t", text := "x", created_at := some 1,
    root_posting_id := some "", parent_posting_id := some "", upvotes := some 2,
    downvotes := some 3, parent_author := some "", parent_title := some "",
    parent_text := some "" }

/-- Database holding exactly the first insertion of ev1. -/
def db1 : List DBRow := (save_moderated [] "f1" "u" "at" 10 ev1).2

/-- Sample row for the diff claim's frame part. -/
def row0 : DBRow := event_row "f1" "u" "at" 10 ev1

/-- Sample one-entry cache for the classification claim. -/
def cacheW : List (String × Posting) := [("p", posting50)]

/-- Fetch function that always fails. -/
def fetch_none : String → Option (List (String × Posting)) := fun _ => none

/-- Resolution function for the discovery witness. -/
def getInfoW : String → InfoResult := fun _ => InfoResult.forum "F" 5

/-- Assignment then lookup of the same key yields the assigned value. -/
theorem alookup_setEntry_self {α : Type} (l : List (String × α)) (k : String) (v : α) :
    alookup (setEntry l k v) k = some v := by
  induction l with
  | nil => simp [setEntry, alookup]
  | cons kv rest ih =>
    obtain ⟨k1, v1⟩ := kv
    by_cases h : k1 = k
    · simp [setEntry, h, alookup]
    · simp [setEntry, h, alookup, ih]

/-- Membership in an extended association list. -/
theorem mem_setEntry {α : Type} {l : List (String × α)} {k : String} {v : α}
    {kv : String × α} (h : kv ∈ setEntry l k v) : kv ∈ l ∨ kv = (k, v) := by
  induction l with
  | nil => simp [setEntry] at h; exact Or.inr h
  | cons kv0 rest ih =>
    obtain ⟨k1, v1⟩ := kv0
    by_cases hk : k1 = k
    · rw [setEntry, if_pos hk] at h
      rcases List.mem_cons.mp h with h1 | h2
      · exact Or.inr h1
      · exact Or.inl (List.mem_cons_of_mem _ h2)
    · rw [setEntry, if_neg hk] at h
      rcases List.mem_cons.mp h with h1 | h2
      · exact Or.inl (h1 ▸ List.mem_cons_self _ _)
      · rcases ih h2 with h3 | h3
        · exact Or.inl (List.mem_cons_of_mem _ h3)
        · exact Or.inr h3

/-- Keys of an association list after an assignment. -/
theorem mem_keys_setEntry {α : Type} (l : List (String × α)) (k m : String) (v : α) :
    m ∈ keysOf (setEntry l k v) ↔ m ∈ keysOf l ∨ m = k := by
  induction l with
  | nil => simp [setEntry, keysOf]
  | cons kv rest ih =>
    obtain ⟨k1, v1⟩ := kv
    rw [setEntry]
    by_cases h : k1 = k
    · rw [if_pos h]
      subst h
      simp only [keysOf, List.map_cons, List.mem_cons]
      tauto
    · rw [if_neg h]
      simp only [keysOf, List.map_cons, List.mem_cons]
      rw [show (List.map Prod.fst (setEntry rest k v)) = keysOf (setEntry rest k v) from rfl]
      rw [ih]
      simp only [keysOf]
      tauto

/-- Keys present before dict.update are present after it. -/
theorem mem_keys_dictUpdate {α : Type} (old new : List (String × α)) (m : String)
    (h : m ∈ keysOf old) : m ∈ keysOf (dictUpdate old new) := by
  induction new generalizing old with
  | nil => exact h
  | cons kv rest ih =>
    exact ih (setEntry old kv.1 kv.2) ((mem_keys_setEntry old kv.1 m kv.2).mpr (Or.inl h))

/-- Successful lookups come from bindings of the list. -/
theorem alookup_mem {α : Type} {l : List (String × α)} {k : String} {v : α}
    (h : alookup l k = some v) : (k, v) ∈ l := by
  induction l with
  | nil => simp [alookup] at h
  | cons kv rest ih =>
    obtain ⟨k1, v1⟩ := kv
    by_cases hk : k1 = k
    · rw [alookup, if_pos hk] at h
      subst hk
      cases h
      exact List.mem_cons_self _ _
    · rw [alookup, if_neg hk] at h
      exact List.mem_cons_of_mem _ (ih h)

/-- Membership of a key is existence of a binding. -/
theorem mem_keys_iff {α : Type} {l : List (String × α)} {m : String} :
    m ∈ keysOf l ↔ ∃ v, (m, v) ∈ l := by
  constructor
  · intro h
    rcases List.mem_map.mp h with ⟨⟨k1, v1⟩, hkv, hfst⟩
    simp only at hfst
    subst hfst
    exact ⟨v1, hkv⟩
  · rintro ⟨v, hv⟩
    exact List.mem_map.mpr ⟨(m, v), hv, rfl⟩

/-- Assignment of a well-keyed posting preserves cache well-formedness. -/
theorem cacheWF_setEntry {l : List (String × Posting)} {k : String} {v : Posting}
    (hl : cacheWF l) (hv : v.id = k) : cacheWF (setEntry l k v) := by
  intro kv hkv
  rcases mem_setEntry hkv with h | h
  · exact hl kv h
  · subst h; exact hv

/-- dict.update of two well-formed caches is well-formed. -/
theorem cacheWF_dictUpdate {old new : List (String × Posting)}
    (ho : cacheWF old) (hn : cacheWF new) : cacheWF (dictUpdate old new) := by
  induction new generalizing old with
  | nil => exact ho
  | cons kv rest ih =>
    exact ih (cacheWF_setEntry ho (hn kv (List.mem_cons_self _ _)))
      (fun x hx => hn x (List.mem_cons_of_mem _ hx))

/-- Event dicts built from a well-formed cache carry the removed id itself. -/
theorem build_event_id {cache : List (String × Posting)} {pid : String}
    (hwf : cacheWF cache) : (build_event cache pid).id = pid := by
  cases h : alookup cache pid with
  | none => simp [build_event, h]
  | some p =>
    have hid : p.id = pid := hwf (pid, p) (alookup_mem h)
    simp [build_event, h, hid]

/-- Rows after the persistence pass are old rows or rows for one of the
persisted candidate ids. -/
theorem mem_persist {db : List DBRow} {fid url t : String} {now : Int}
    {cache : List (String × Posting)} {pids : List String} {row : DBRow}
    (h : row ∈ persist_moderated db fid url t now cache pids) :
    row ∈ db ∨ ∃ pid ∈ pids, row = event_row fid url t now (build_event cache pid) := by
  induction pids generalizing db with
  | nil => exact Or.inl h
  | cons p rest ih =>
    rw [show persist_moderated db fid url t now cache (p :: rest) =
        persist_moderated ((save_moderated db fid url t now (build_event cache p)).2)
          fid url t now cache rest from rfl] at h
    rcases ih h with h1 | ⟨pid, hp, he⟩
    · by_cases hk : hasKey db fid (build_event cache p).id
      · rw [save_moderated, if_pos hk] at h1
        exact Or.inl h1
      · rw [save_moderated, if_neg hk] at h1
        rcases List.mem_append.mp h1 with h2 | h2
        · exact Or.inl h2
        · exact Or.inr ⟨p, List.mem_cons_self _ _, List.mem_singleton.mp h2⟩
    · exact Or.inr ⟨pid, List.mem_cons_of_mem _ hp, he⟩

/-- Unfolding of process_forum when the forum is not monitored. -/
theorem process_forum_eq_none (st : State) (f : String) (now : Int)
    (h : alookup st.forums f = none)
    (fetch : Option (List (String × Posting))) :
    process_forum st f fetch now = st := by
  unfold process_forum
  rw [h]

/-- Unfolding of process_forum when the fetch raises. -/
theorem process_forum_fetch_none_eq (st : State) (f : String) (now : Int) :
    process_forum st f none now = st := by
  unfold process_forum
  cases alookup st.forums f <;> rfl

/-- Unfolding of process_forum on a successful fetch of a monitored forum. -/
theorem process_forum_eq (st : State) (f : String) (info : ForumInfo)
    (cur : List (String × Posting)) (now : Int)
    (h : alookup st.forums f = some info) :
    process_forum st f (some cur) now =
      { forums := setEntry st.forums f (updated_info info cur)
        snapshots := setEntry st.snapshots f cur
        posting_cache := dictUpdate st.posting_cache cur
        db := new_db st f info cur now } := by
  unfold process_forum
  rw [h]

/-- Cache keys survive one forum's processing. -/
theorem cache_subset_process_forum (st : State) (f : String)
    (fetch : Option (List (String × Posting))) (now : Int) :
    keysOf st.posting_cache ⊆ keysOf (process_forum st f fetch now).posting_cache := by
  cases h : alookup st.forums f with
  | none =>
    rw [process_forum_eq_none st f now h fetch]
    exact fun a ha => ha
  | some info =>
    cases fetch with
    | none =>
      rw [process_forum_fetch_none_eq]
      exact fun a ha => ha
    | some cur =>
      rw [process_forum_eq st f info cur now h]
      exact fun a ha => mem_keys_dictUpdate _ _ _ ha

/-- Bindings unique under key nodup. -/
theorem eq_of_keys_nodup {α : Type} {l : List (String × α)} {k : String} {a b : α}
    (hnd : (keysOf l).Nodup) (ha : (k, a) ∈ l) (hb : (k, b) ∈ l) : a = b := by
  induction l with
  | nil => cases ha
  | cons kv rest ih =>
    simp only [keysOf, List.map_cons, List.nodup_cons] at hnd
    rcases List.mem_cons.mp ha with ha1 | ha2 <;> rcases List.mem_cons.mp hb with hb1 | hb2
    · exact congrArg Prod.snd (ha1.trans hb1.symm)
    · subst ha1
      exact absurd (List.mem_map.mpr ⟨(k, b), hb2, rfl⟩) hnd.1
    · subst hb1
      exact absurd (List.mem_map.mpr ⟨(k, a), ha2, rfl⟩) hnd.1
    · exact ih hnd.2 ha2 hb2

/-- Invariant carried through the discovery fold: every accumulated forum id
is new and witnessed by an RSS item above the threshold. -/
theorem discover_aux (forums : List (String × ForumInfo)) (min_posts : Nat)
    (get_info : String → InfoResult) (rss_items : List (String × String)) :
    ∀ (items : List (String × String)) (acc : List (String × ForumInfo)),
      (∀ x ∈ items, x ∈ rss_items) →
      (∀ fid ∈ keysOf acc, fid ∉ keysOf forums ∧
        ∃ url title c, (url, title) ∈ rss_items ∧
          get_info url = InfoResult.forum fid c ∧ min_posts ≤ c) →
      ∀ fid ∈ keysOf (items.foldl (discover_step forums min_posts get_info) acc),
        fid ∉ keysOf forums ∧
        ∃ url title c, (url, title) ∈ rss_items ∧
          get_info url = InfoResult.forum fid c ∧ min_posts ≤ c := by
  intro items
  induction items with
  | nil => intro acc _ hacc fid hfid; exact hacc fid hfid
  | cons item rest ih =>
    intro acc hsub hacc fid hfid
    refine ih _ (fun x hx => hsub x (List.mem_cons_of_mem _ hx)) ?_ fid hfid
    intro fid2 hfid2
    by_cases hknown : item.1 ∈ forums.map (fun kv => kv.2.url)
    · rw [discover_step, if_pos hknown] at hfid2
      exact hacc fid2 hfid2
    · cases hgi : get_info item.1 with
      | fetchError =>
        rw [discover_step, if_neg hknown, hgi] at hfid2
        exact hacc fid2 hfid2
      | noForum =>
        rw [discover_step, if_neg hknown, hgi] at hfid2
        exact hacc fid2 hfid2
      | forum f c =>
        rw [discover_step, if_neg hknown, hgi] at hfid2
        change fid2 ∈ keysOf
          (if f ∈ keysOf forums then acc
           else if c < min_posts then acc
           else setEntry acc f
             { url := item.1, title := item.2, last_activity := none }) at hfid2
        by_cases hmon : f ∈ keysOf forums
        · rw [if_pos hmon] at hfid2
          exact hacc fid2 hfid2
        · rw [if_neg hmon] at hfid2
          by_cases hcnt : c < min_posts
          · rw [if_pos hcnt] at hfid2
            exact hacc fid2 hfid2
          · rw [if_neg hcnt] at hfid2
            rcases (mem_keys_setEntry acc f fid2 _).mp hfid2 with h | h
            · exact hacc fid2 h
            · subst h
              exact ⟨hmon, item.1, item.2, c,
                hsub item (List.mem_cons_self _ _), hgi, Nat.le_of_not_lt hcnt⟩

/-- C1: persisting the same (forum_id, posting_id) twice is claimed to return
true then false while keeping one row.  The code keeps exactly one row, but
save_moderated returns true on every call, the duplicate call included,
because INSERT OR IGNORE raises no IntegrityError: evaluated at the failing
input, the second call returns true, not false. -/
theorem C1_duplicate_persist_returns_true :
    (∀ (db : List DBRow) (fid url atitle : String) (now : Int) (p : EventPosting),
      (save_moderated db fid url atitle now p).1 = true) ∧
    (save_moderated [] "f1" "u" "at" 10 ev1).1 = true ∧
    countKey db1 "f1" "p1" = 1 ∧
    (save_moderated db1 "f1" "u" "at" 11 ev1).1 = true ∧
    countKey (save_moderated db1 "f1" "u" "at" 11 ev1).2 "f1" "p1" = 1 := by
  refine ⟨?_, by decide, by decide, by decide, by decide⟩
  intro db fid url atitle now p
  unfold save_moderated
  split <;> rfl

/-- C2: on the first successful fetch of a forum (no stored snapshot) the
orchestrator persists no ModerationEvent and only stores the fetched set as
the baseline snapshot. -/
theorem C2_first_fetch_baseline (st : State) (f : String) (info : ForumInfo)
    (cur : List (String × Posting)) (now : Int)
    (hforum : alookup st.forums f = some info)
    (hsnap : alookup st.snapshots f = none) :
    (process_forum st f (some cur) now).db = st.db ∧
    alookup (process_forum st f (some cur) now).snapshots f = some cur := by
  rw [process_forum_eq st f info cur now hforum]
  constructor
  · show new_db st f info cur now = st.db
    unfold new_db
    rw [hsnap]
  · exact alookup_setEntry_self st.snapshots f cur

theorem C2_first_fetch_baseline_witness :
    (process_forum st2 "f" (some cur2) 0).db = st2.db ∧
    alookup (process_forum st2 "f" (some cur2) 0).snapshots "f" = some cur2 :=
  C2_first_fetch_baseline st2 "f" finfo_none cur2 0 (by decide) (by decide)

/-- C6: a failed fetch leaves the whole orchestrator state of that cycle
untouched for that forum (snapshot, last_activity, cache, forum entry, and
the database), and the per-cycle pass over the remaining forums is exactly
the pass with the failing forum skipped. -/
theorem C6_fetch_failure (st : State) (f : String) (now : Int)
    (fetch : String → Option (List (String × Posting)))
    (pre post : List String) (hfail : fetch f = none) :
    process_forum st f none now = st ∧
    process_cycle st (pre ++ f :: post) fetch now =
      process_cycle st (pre ++ post) fetch now := by
  refine ⟨process_forum_fetch_none_eq st f now, ?_⟩
  unfold process_cycle
  simp only [List.foldl_append, List.foldl_cons]
  rw [hfail, process_forum_fetch_none_eq]

theorem C6_fetch_failure_witness :
    process_forum st2 "f" none 0 = st2 ∧
    process_cycle st2 ([] ++ "f" :: ["g"]) fetch_none 0 =
      process_cycle st2 ([] ++ ["g"]) fetch_none 0 :=
  C6_fetch_failure st2 "f" 0 fetch_none [] ["g"] rfl

/-- C8: the posting cache grows monotonically within one run: every key
present before a poll cycle is still present after it, and the cleanup pass
never touches the cache. -/
theorem C8_cache_monotone (st : State) (ids : List String)
    (fetch : String → Option (List (String × Posting))) (now mi : Int) :
    keysOf st.posting_cache ⊆ keysOf (process_cycle st ids fetch now).posting_cache ∧
    (cleanup_inactive st now mi).posting_cache = st.posting_cache := by
  constructor
  · induction ids generalizing st with
    | nil => exact fun a ha => ha
    | cons f rest ih =>
      intro a ha
      exact ih (process_forum st f (fetch f) now)
        (cache_subset_process_forum st f (fetch f) now ha)
  · unfold cleanup_inactive
    split <;> rfl

/-- C3: the diff is plain set difference on the key sets (membership
characterization and the concrete {A,B,C} vs {A,C,D} scenario), and every
row persisted by a forum's pass beyond the pre-existing ones carries a
removed id — added ids can never produce events. -/
theorem C3_diff_membership (prev cur : List String) (k : String)
    (st : State) (f : String) (snap : List (String × Posting)) (now : Int)
    (row : DBRow)
    (hwf1 : cacheWF st.posting_cache) (hwf2 : cacheWF snap) :
    (k ∈ added_ids prev cur ↔ k ∈ cur ∧ k ∉ prev) ∧
    (k ∈ removed_ids prev cur ↔ k ∈ prev ∧ k ∉ cur) ∧
    added_ids ["A", "B", "C"] ["A", "C", "D"] = ["D"] ∧
    removed_ids ["A", "B", "C"] ["A", "C", "D"] = ["B"] ∧
    (row ∈ (process_forum st f (some snap) now).db →
      row ∈ st.db ∨
        ∃ prevSnap, alookup st.snapshots f = some prevSnap ∧
          row.posting_id ∈ removed_ids (keysOf prevSnap) (keysOf snap)) := by
  refine ⟨?_, ?_, by decide, by decide, ?_⟩
  · simp [added_ids, List.mem_filter]
  · simp [removed_ids, List.mem_filter]
  · intro hrow
    cases hfa : alookup st.forums f with
    | none =>
      rw [process_forum_eq_none st f now hfa] at hrow
      exact Or.inl hrow
    | some info =>
      rw [process_forum_eq st f info snap now hfa] at hrow
      change row ∈ new_db st f info snap now at hrow
      unfold new_db at hrow
      cases hsn : alookup st.snapshots f with
      | none =>
        rw [hsn] at hrow
        exact Or.inl hrow
      | some prevSnap =>
        rw [hsn] at hrow
        rcases mem_persist hrow with h | ⟨pid, hp, he⟩
        · exact Or.inl h
        · refine Or.inr ⟨prevSnap, rfl, ?_⟩
          have hwf : cacheWF (dictUpdate st.posting_cache snap) :=
            cacheWF_dictUpdate hwf1 hwf2
          have hid : row.posting_id = pid := by
            rw [he]
            exact build_event_id hwf
          rw [hid]
          exact List.mem_of_mem_filter hp

theorem C3_diff_membership_witness :
    (("A" : String) ∈ added_ids ["A"] ["B"] ↔
      ("A" : String) ∈ ["B"] ∧ ("A" : String) ∉ ["A"]) ∧
    (("A" : String) ∈ removed_ids ["A"] ["B"] ↔
      ("A" : String) ∈ ["A"] ∧ ("A" : String) ∉ ["B"]) ∧
    added_ids ["A", "B", "C"] ["A", "C", "D"] = ["D"] ∧
    removed_ids ["A", "B", "C"] ["A", "C", "D"] = ["B"] ∧
    (row0 ∈ (process_forum st2 "f" (some ([] : List (String × Posting))) 0).db →
      row0 ∈ st2.db ∨
        ∃ prevSnap, alookup st2.snapshots "f" = some prevSnap ∧
          row0.posting_id ∈ removed_ids (keysOf prevSnap)
            (keysOf ([] : List (String × Posting)))) :=
  C3_diff_membership ["A"] ["B"] "A" st2 "f" [] 0 row0
    (by intro kv h; simp [st2] at h) (by intro kv h; simp at h)

/-- C4: classification of a removed id consults the posting cache — a cached
record with self_deleted true is excluded, one with self_deleted false is
included, and a cache miss is still included and produces the placeholder
event with author, title and text all set to the question mark. -/
theorem C4_classification (cache : List (String × Posting)) (removed : List String)
    (pid : String) (hmem : pid ∈ removed) :
    (∀ p : Posting, alookup cache pid = some p →
      (p.self_deleted = true → pid ∉ classify_removed cache removed) ∧
      (p.self_deleted = false → pid ∈ classify_removed cache removed)) ∧
    (alookup cache pid = none →
      pid ∈ classify_removed cache removed ∧
      (build_event cache pid).author = "?" ∧
      (build_event cache pid).title = "?" ∧
      (build_event cache pid).text = "?") := by
  constructor
  · intro p hp
    constructor
    · intro hsd hin
      have h2 := (List.mem_filter.mp hin).2
      rw [hp] at h2
      simp [hsd] at h2
    · intro hsd
      refine List.mem_filter.mpr ⟨hmem, ?_⟩
      rw [hp]
      simp [hsd]
  · intro hmiss
    refine ⟨List.mem_filter.mpr ⟨hmem, ?_⟩, ?_, ?_, ?_⟩ <;>
      simp [build_event, hmiss]

theorem C4_classification_witness :
    (∀ p : Posting, alookup cacheW "p" = some p →
      (p.self_deleted = true → "p" ∉ classify_removed cacheW ["p"]) ∧
      (p.self_deleted = false → "p" ∈ classify_removed cacheW ["p"])) ∧
    (alookup cacheW "p" = none →
      "p" ∈ classify_removed cacheW ["p"] ∧
      (build_event cacheW "p").author = "?" ∧
      (build_event cacheW "p").title = "?" ∧
      (build_event cacheW "p").text = "?") :=
  C4_classification cacheW ["p"] "p" (by decide)

/-- C5 counterexample: the claim says the stored last_activity only updates
when the current fetch's maximum created_at is strictly newer and never
moves backward, but a fetch whose newest posting is older than the stored
value (here the posting created at 100 was removed, leaving a maximum of 50
against a stored 100) overwrites it backward. -/
theorem C5_counterexample :
    alookup st5.forums "f" = some finfo100 ∧
    finfo100.last_activity = some 100 ∧
    alookup (process_forum st5 "f" (some cur2) 0).forums "f" =
      some { url := "u", title := "", last_activity := some (50 : Int) } ∧
    (50 : Int) < 100 := by
  refine ⟨by decide, by decide, ?_, by decide⟩
  decide

/-- C5 amended: on every successful fetch the stored last_activity is set
unconditionally to the maximum created_at of the current fetch whenever the
fetch has at least one parseable created_at (it can move backward); it is
left unchanged only when the fetch has no parseable created_at. -/
theorem C5_amended_last_activity (st : State) (f : String) (info : ForumInfo)
    (cur : List (String × Posting)) (now : Int)
    (h : alookup st.forums f = some info) :
    alookup (process_forum st f (some cur) now).forums f =
      some (updated_info info cur) ∧
    (∀ t : Int, newest_posting_time cur = some t →
      (updated_info info cur).last_activity = some t) ∧
    (newest_posting_time cur = none → updated_info info cur = info) := by
  refine ⟨?_, ?_, ?_⟩
  · rw [process_forum_eq st f info cur now h]
    exact alookup_setEntry_self st.forums f (updated_info info cur)
  · intro t ht
    unfold updated_info
    rw [ht]
  · intro ht
    unfold updated_info
    rw [ht]

theorem C5_amended_last_activity_witness :
    alookup (process_forum st5 "f" (some cur2) 0).forums "f" =
      some (updated_info finfo100 cur2) ∧
    (∀ t : Int, newest_posting_time cur2 = some t →
      (updated_info finfo100 cur2).last_activity = some t) ∧
    (newest_posting_time cur2 = none → updated_info finfo100 cur2 = finfo100) :=
  C5_amended_last_activity st5 "f" finfo100 cur2 0 (by decide)

/-- C7: after the lifecycle pass of a cycle, with a positive configured
threshold, a monitored forum whose last_activity is present and older than
the threshold loses both its forum entry and its snapshot, while a forum
with absent last_activity is never evicted. -/
theorem C7_staleness_eviction (st : State) (now max_inactive : Int) (f : String)
    (info : ForumInfo) (hpos : 0 < max_inactive)
    (hnd : (keysOf st.forums).Nodup) (hmem : (f, info) ∈ st.forums) :
    (∀ la : Int, info.last_activity = some la → 60 * max_inactive < now - la →
      f ∉ keysOf (cleanup_inactive st now max_inactive).forums ∧
      f ∉ keysOf (cleanup_inactive st now max_inactive).snapshots) ∧
    (info.last_activity = none →
      f ∈ keysOf (cleanup_inactive st now max_inactive).forums) := by
  have hcl : cleanup_inactive st now max_inactive =
      { st with
        forums := st.forums.filter
          (fun kv => decide (kv.1 ∉ stale_forums st.forums now max_inactive))
        snapshots := st.snapshots.filter
          (fun kv => decide (kv.1 ∉ stale_forums st.forums now max_inactive)) } := by
    unfold cleanup_inactive
    rw [if_pos hpos]
  rw [hcl]
  constructor
  · intro la hla hage
    have hstale : f ∈ stale_forums st.forums now max_inactive := by
      refine mem_keys_iff.mpr ⟨info, List.mem_filter.mpr ⟨hmem, ?_⟩⟩
      show isStale now max_inactive info = true
      unfold isStale
      rw [hla]
      simpa using hage
    constructor
    · intro hin
      rcases mem_keys_iff.mp hin with ⟨v, hv⟩
      have h2 := (List.mem_filter.mp hv).2
      simp only [decide_eq_true_eq] at h2
      exact h2 hstale
    · intro hin
      rcases mem_keys_iff.mp hin with ⟨v, hv⟩
      have h2 := (List.mem_filter.mp hv).2
      simp only [decide_eq_true_eq] at h2
      exact h2 hstale
  · intro hnone
    have hnotstale : f ∉ stale_forums st.forums now max_inactive := by
      intro hst
      rcases mem_keys_iff.mp hst with ⟨v, hv⟩
      have hv1 := (List.mem_filter.mp hv).1
      have hv2 := (List.mem_filter.mp hv).2
      have hvi : v = info := eq_of_keys_nodup hnd hv1 hmem
      rw [hvi] at hv2
      change isStale now max_inactive info = true at hv2
      unfold isStale at hv2
      rw [hnone] at hv2
      simp at hv2
    refine mem_keys_iff.mpr ⟨info, List.mem_filter.mpr ⟨hmem, ?_⟩⟩
    simpa using hnotstale

theorem C7_staleness_eviction_witness :
    (∀ la : Int, finfo100.last_activity = some la → 60 * 1 < 10000 - la →
      "f" ∉ keysOf (cleanup_inactive st7 10000 1).forums ∧
      "f" ∉ keysOf (cleanup_inactive st7 10000 1).snapshots) ∧
    (finfo100.last_activity = none →
      "f" ∈ keysOf (cleanup_inactive st7 10000 1).forums) :=
  C7_staleness_eviction st7 10000 1 "f" finfo100 (by decide) (by decide) (by decide)

/-- C9: nothing entering the monitored set through discovery was below the
threshold: every forum id discovery adds is not already monitored and is
witnessed by an RSS item resolving to it with a posting count at or above
min_posts; candidates resolving to an error, to no forum, to an already
monitored id, or below the threshold are skipped no matter how often they
occur. -/
theorem C9_discovery_threshold (forums : List (String × ForumInfo)) (min_posts : Nat)
    (rss_items : List (String × String)) (get_info : String → InfoResult) (fid : String)
    (hfid : fid ∈ keysOf (discover_articles forums min_posts rss_items get_info)) :
    fid ∉ keysOf forums ∧
    ∃ url title c, (url, title) ∈ rss_items ∧
      get_info url = InfoResult.forum fid c ∧ min_posts ≤ c := by
  have h0 : ∀ fid2 ∈ keysOf ([] : List (String × ForumInfo)),
      fid2 ∉ keysOf forums ∧
      ∃ url title c, (url, title) ∈ rss_items ∧
        get_info url = InfoResult.forum fid2 c ∧ min_posts ≤ c := by
    intro fid2 h
    simp [keysOf] at h
  exact discover_aux forums min_posts get_info rss_items rss_items []
    (fun x hx => hx) h0 fid hfid

theorem C9_discovery_threshold_witness :
    "F" ∉ keysOf ([] : List (String × ForumInfo)) ∧
    ∃ url title c, (url, title) ∈ [("u1", "t1")] ∧
      getInfoW url = InfoResult.forum "F" c ∧ 2 ≤ c :=
  C9_discovery_threshold [] 2 [("u1", "t1")] getInfoW "F" (by decide)

/-- C10: a removed id missing from the posting cache is persisted from the
placeholder record, so its row has is_reply 0, thread_id equal to the
posting's own id, zero upvotes and downvotes, and empty parent fields. -/
theorem C10_cache_miss_placeholder_row (cache : List (String × Posting)) (pid : String)
    (db : List DBRow) (fid url atitle : String) (now : Int)
    (hmiss : alookup cache pid = none)
    (hfresh : hasKey db fid pid = false) :
    (save_moderated db fid url atitle now (build_event cache pid)).2 =
      db ++ [event_row fid url atitle now (build_event cache pid)] ∧
    (event_row fid url atitle now (build_event cache pid)).is_reply = 0 ∧
    (event_row fid url atitle now (build_event cache pid)).thread_id = pid ∧
    (event_row fid url atitle now (build_event cache pid)).upvotes = 0 ∧
    (event_row fid url atitle now (build_event cache pid)).downvotes = 0 ∧
    (event_row fid url atitle now (build_event cache pid)).parent_posting_id = "" ∧
    (event_row fid url atitle now (build_event cache pid)).parent_author = "" ∧
    (event_row fid url atitle now (build_event cache pid)).parent_title = "" ∧
    (event_row fid url atitle now (build_event cache pid)).parent_text = "" := by
  have hb : build_event cache pid =
      { id := pid, author := "?", title := "?", text := "?", created_at := none,
        root_posting_id := none, parent_posting_id := none, upvotes := none,
        downvotes := none, parent_author := none, parent_title := none,
        parent_text := none } := by
    unfold build_event
    rw [hmiss]
  rw [hb]
  refine ⟨by simp [save_moderated, hfresh], by simp [event_row], by simp [event_row],
    by simp [event_row], by simp [event_row], by simp [event_row],
    by simp [event_row], by simp [event_row], by simp [event_row]⟩

theorem C10_cache_miss_placeholder_row_witness :
    (save_moderated [] "f1" "u" "at" 10 (build_event [] "p1")).2 =
      [] ++ [event_row "f1" "u" "at" 10 (build_event [] "p1")] ∧
    (event_row "f1" "u" "at" 10 (build_event [] "p1")).is_reply = 0 ∧
    (event_row "f1" "u" "at" 10 (build_event [] "p1")).thread_id = "p1" ∧
    (event_row "f1" "u" "at" 10 (build_event [] "p1")).upvotes = 0 ∧
    (event_row "f1" "u" "at" 10 (build_event [] "p1")).downvotes = 0 ∧
    (event_row "f1" "u" "at" 10 (build_event [] "p1")).parent_posting_id = "" ∧
    (event_row "f1" "u" "at" 10 (build_event [] "p1")).parent_author = "" ∧
    (event_row "f1" "u" "at" 10 (build_event [] "p1")).parent_title = "" ∧
    (event_row "f1" "u" "at" 10 (build_event [] "p1")).parent_text = "" :=
  C10_cache_miss_placeholder_row [] "p1" [] "f1" "u" "at" 10 rfl rfl

end ModDetector
